import Mathlib

/-
Verification of the rcp-rs request checksum protocol (src/lib.rs).

The development shallowly embeds the crate in Lean:
* Rust String values are Lean String values; the bytes fed to the hash are
  their UTF-8 encodings, computed by utf8Bytes below.
* A request (any collection of name/value pairs, values already rendered by
  Display) is a List (String × String) in iteration order.
* SHA-512 is modelled bit-exactly from FIPS 180-4, which is what the sha2
  crate implements; words are Nat reduced mod 2 ^ 64.
* The ambient clock read Utc::now().timestamp() is passed in as an explicit
  Int argument named now, so generation and validation can be stated at
  arbitrary clock readings.
* Rust sort_by with a byte-wise key comparison is a stable sort; a stable
  sort is uniquely determined by the comparator and the input order, so it
  is embedded as List.insertionSort over the byte-wise key order, which is
  stable in exactly the same way.
-/

namespace RCP

/-! ### SHA-512 (model of the sha2 crate as used by lib.rs) -/

def M64 : Nat := 2 ^ 64

def rotr (n x : Nat) : Nat := (x >>> n) ||| ((x <<< (64 - n)) % M64)

def bigSigma0 (x : Nat) : Nat := rotr 28 x ^^^ rotr 34 x ^^^ rotr 39 x

def bigSigma1 (x : Nat) : Nat := rotr 14 x ^^^ rotr 18 x ^^^ rotr 41 x

def smallSigma0 (x : Nat) : Nat := rotr 1 x ^^^ rotr 8 x ^^^ (x >>> 7)

def smallSigma1 (x : Nat) : Nat := rotr 19 x ^^^ rotr 61 x ^^^ (x >>> 6)

def chFun (e f g : Nat) : Nat := (e &&& f) ^^^ ((e ^^^ (M64 - 1)) &&& g)

def majFun (a b c : Nat) : Nat := (a &&& b) ^^^ (a &&& c) ^^^ (b &&& c)

/-- The 80 SHA-512 round constants of FIPS 180-4 (the first 64 bits of the
fractional parts of the cube roots of the first 80 primes), as decimals. -/
def kConsts : List Nat :=
  [4794697086780616226, 8158064640168781261, 13096744586834688815,
   16840607885511220156, 4131703408338449720, 6480981068601479193,
   10538285296894168987, 12329834152419229976, 15566598209576043074,
   1334009975649890238, 2608012711638119052, 6128411473006802146,
   8268148722764581231, 9286055187155687089, 11230858885718282805,
   13951009754708518548, 16472876342353939154, 17275323862435702243,
   1135362057144423861, 2597628984639134821, 3308224258029322869,
   5365058923640841347, 6679025012923562964, 8573033837759648693,
   10970295158949994411, 12119686244451234320, 12683024718118986047,
   13788192230050041572, 14330467153632333762, 15395433587784984357,
   489312712824947311, 1452737877330783856, 2861767655752347644,
   3322285676063803686, 5560940570517711597, 5996557281743188959,
   7280758554555802590, 8532644243296465576, 9350256976987008742,
   10552545826968843579, 11727347734174303076, 12113106623233404929,
   14000437183269869457, 14369950271660146224, 15101387698204529176,
   15463397548674623760, 17586052441742319658, 1182934255886127544,
   1847814050463011016, 2177327727835720531, 2830643537854262169,
   3796741975233480872, 4115178125766777443, 5681478168544905931,
   6601373596472566643, 7507060721942968483, 8399075790359081724,
   8693463985226723168, 9568029438360202098, 10144078919501101548,
   10430055236837252648, 11840083180663258601, 13761210420658862357,
   14299343276471374635, 14566680578165727644, 15097957966210449927,
   16922976911328602910, 17689382322260857208, 500013540394364858,
   748580250866718886, 1242879168328830382, 1977374033974150939,
   2944078676154940804, 3659926193048069267, 4368137639120453308,
   4836135668995329356, 5532061633213252278, 6448918945643986474,
   6902733635092675308, 7801388544844847127]

structure H8 where
  a : Nat
  b : Nat
  c : Nat
  d : Nat
  e : Nat
  f : Nat
  g : Nat
  h : Nat

/-- The eight SHA-512 initial hash words of FIPS 180-4 (the first 64 bits of
the fractional parts of the square roots of the first 8 primes), as
decimals. -/
def initH : H8 :=
  ⟨7640891576956012808, 13503953896175478587, 4354685564936845355,
   11912009170470909681, 5840696475078001361, 11170449401992604703,
   2270897969802886507, 6620516959819538809⟩

def beWord (bytes : List Nat) : Nat := bytes.foldl (fun acc b => acc * 256 + b) 0

def toWords (block : List Nat) : List Nat :=
  (List.range 16).map (fun i => beWord ((block.drop (8 * i)).take 8))

def schedule (w0 : List Nat) : List Nat :=
  (List.range 64).foldl
    (fun w _ =>
      let n := w.length
      let x := (w.getD (n - 16) 0 + smallSigma0 (w.getD (n - 15) 0)
        + w.getD (n - 7) 0 + smallSigma1 (w.getD (n - 2) 0)) % M64
      w ++ [x])
    w0

def shaRound (st : H8) (kw : Nat × Nat) : H8 :=
  let t1 := (st.h + bigSigma1 st.e + chFun st.e st.f st.g + kw.1 + kw.2) % M64
  let t2 := (bigSigma0 st.a + majFun st.a st.b st.c) % M64
  ⟨(t1 + t2) % M64, st.a, st.b, st.c, (st.d + t1) % M64, st.e, st.f, st.g⟩

def compress (st : H8) (block : List Nat) : H8 :=
  let w := schedule (toWords block)
  let s := (kConsts.zip w).foldl shaRound st
  ⟨(st.a + s.a) % M64, (st.b + s.b) % M64, (st.c + s.c) % M64, (st.d + s.d) % M64,
   (st.e + s.e) % M64, (st.f + s.f) % M64, (st.g + s.g) % M64, (st.h + s.h) % M64⟩

def lenBytes (bits : Nat) : List Nat :=
  (List.range 16).map (fun i => bits / 2 ^ (8 * (15 - i)) % 256)

def padMsg (msg : List Nat) : List Nat :=
  let zeros := (128 - ((msg.length + 17) % 128)) % 128
  msg ++ [0x80] ++ List.replicate zeros 0 ++ lenBytes (8 * msg.length)

def chunks (l : List Nat) : List (List Nat) :=
  (List.range (l.length / 128)).map (fun i => (l.drop (128 * i)).take 128)

def wordBytes (w : Nat) : List Nat :=
  [w / 2 ^ 56 % 256, w / 2 ^ 48 % 256, w / 2 ^ 40 % 256, w / 2 ^ 32 % 256,
   w / 2 ^ 24 % 256, w / 2 ^ 16 % 256, w / 2 ^ 8 % 256, w % 256]

def sha512Bytes (msg : List Nat) : List Nat :=
  let st := (chunks (padMsg msg)).foldl compress initH
  wordBytes st.a ++ wordBytes st.b ++ wordBytes st.c ++ wordBytes st.d
    ++ wordBytes st.e ++ wordBytes st.f ++ wordBytes st.g ++ wordBytes st.h

def hexChar (n : Nat) : Char :=
  if n < 10 then Char.ofNat (48 + n) else Char.ofNat (87 + n)

def hexBytes (bytes : List Nat) : List Char :=
  bytes.flatMap (fun b => [hexChar (b / 16), hexChar (b % 16)])

/-- Model of fn sha512 in lib.rs: hash the bytes with SHA-512 and render the
64 digest bytes as lowercase hex, two characters per byte, most significant
byte first. -/
def sha512 (data : List Nat) : String := String.mk (hexBytes (sha512Bytes data))

/-! ### UTF-8 encoding of Rust strings -/

def utf8EncodeChar (c : Char) : List Nat :=
  let n := c.toNat
  if n < 0x80 then [n]
  else if n < 0x800 then [0xC0 + n / 0x40, 0x80 + n % 0x40]
  else if n < 0x10000 then [0xE0 + n / 0x1000, 0x80 + n / 0x40 % 0x40, 0x80 + n % 0x40]
  else [0xF0 + n / 0x40000, 0x80 + n / 0x1000 % 0x40, 0x80 + n / 0x40 % 0x40, 0x80 + n % 0x40]

def utf8List (l : List Char) : List Nat := l.flatMap utf8EncodeChar

def utf8Bytes (s : String) : List Nat := utf8List s.data

/-! ### The protocol (model of RCPConfig and the free functions of lib.rs) -/

structure RCPConfig where
  shared_secret : String
  use_time_component : Bool
  time_delta : Int

/-- Model of RCPConfig::default. -/
def defaultConfig : RCPConfig := ⟨"", true, 5⟩

/-- Byte-wise lexicographic comparison, the order used by Rust str::cmp. -/
def bytesLe : List Nat → List Nat → Bool
  | [], _ => true
  | _ :: _, [] => false
  | a :: xs, b :: ys => if a < b then true else if b < a then false else bytesLe xs ys

def keyLe (a b : String) : Bool := bytesLe (utf8Bytes a) (utf8Bytes b)

def pairLe (p q : String × String) : Prop := keyLe p.1 q.1 = true

instance : DecidableRel pairLe := fun _ _ => decEq _ _

/-- The stable sort by key performed by pairs.sort_by in pre_assemble. -/
def sortPairs (request : List (String × String)) : List (String × String) :=
  List.insertionSort pairLe request

/-- Model of fn pre_assemble: sort the pairs by key, concatenate
salt, key1, value1, key2, value2, ..., then append the shared secret. -/
def pre_assemble (request : List (String × String)) (shared_secret salt : String) : String :=
  (sortPairs request).foldl (fun acc p => acc ++ p.1 ++ p.2) salt ++ shared_secret

/-- The full string hashed by RCPConfig::get_checksum: the pre-assembled
string, extended with the decimal rendering of the clock reading when the
time component is enabled. -/
def hashInput (cfg : RCPConfig) (request : List (String × String)) (salt : String)
    (now : Int) : String :=
  pre_assemble request cfg.shared_secret salt
    ++ (if cfg.use_time_component then toString now else "")

/-- Model of RCPConfig::get_checksum, with the clock reading now explicit. -/
def get_checksum (cfg : RCPConfig) (request : List (String × String)) (salt : String)
    (now : Int) : String :=
  sha512 (utf8Bytes (hashInput cfg request salt now))

/-- The deltas tried by validate_checksum: the half-open integer range
from -time_delta (inclusive) to time_delta (exclusive), as iterated by the
Rust range (-self.time_delta)..(self.time_delta). -/
def deltaRange (td : Int) : List Int :=
  (List.range (2 * td).toNat).map (fun (i : Nat) => -td + (i : Int))

/-- Model of RCPConfig::validate_checksum, with the clock reading now
explicit. -/
def validate_checksum (cfg : RCPConfig) (request : List (String × String))
    (salt checksum : String) (now : Int) : Bool :=
  if cfg.use_time_component then
    let string := pre_assemble request cfg.shared_secret salt
    (deltaRange cfg.time_delta).any
      (fun delta => sha512 (utf8Bytes (string ++ toString (now + delta))) == checksum)
  else
    get_checksum cfg request salt now == checksum

/-! ### Spec-side definition for the canonical layout (claim C2) -/

/-- Written from the words of the spec: the sorted name+value concatenations,
with no separators. -/
def concatPairs : List (String × String) → String
  | [] => ""
  | p :: l => p.1 ++ p.2 ++ concatPairs l

/-! ### Proof apparatus: a decoder for the first UTF-8 scalar, used to show
that utf8Bytes is injective (so distinct names have distinct byte strings) -/

def decodeFirst : List Nat → Option (Nat × List Nat)
  | [] => none
  | b :: bs =>
    if b < 0x80 then some (b, bs)
    else if b < 0xE0 then
      match bs with
      | b1 :: tl => some ((b - 0xC0) * 0x40 + (b1 - 0x80), tl)
      | [] => none
    else if b < 0xF0 then
      match bs with
      | b1 :: b2 :: tl => some ((b - 0xE0) * 0x1000 + (b1 - 0x80) * 0x40 + (b2 - 0x80), tl)
      | _ => none
    else
      match bs with
      | b1 :: b2 :: b3 :: tl =>
        some ((b - 0xF0) * 0x40000 + (b1 - 0x80) * 0x1000 + (b2 - 0x80) * 0x40 + (b3 - 0x80), tl)
      | _ => none

/-! ### Concrete configurations used by the test-vector claims -/

/-- The configuration of the test vectors: secret Hallo-123, no time. -/
def cfgVec : RCPConfig := ⟨"Hallo-123", false, 5⟩

/-- The configuration of the time-tolerance claim: secret Hallo-123,
time component on, time_delta 5. -/
def cfgTime : RCPConfig := ⟨"Hallo-123", true, 5⟩

/-! ### Basic lemmas -/

theorem mem_deltaRange {td d : Int} : d ∈ deltaRange td ↔ -td ≤ d ∧ d < td := by
  unfold deltaRange
  rw [List.mem_map]
  constructor
  · rintro ⟨i, hi, rfl⟩
    rw [List.mem_range] at hi
    omega
  · intro h
    refine ⟨(d + td).toNat, ?_, ?_⟩
    · rw [List.mem_range]
      omega
    · omega

theorem validate_checksum_time (cfg : RCPConfig) (request : List (String × String))
    (salt checksum : String) (now : Int) (hf : cfg.use_time_component = true) :
    validate_checksum cfg request salt checksum now =
      (deltaRange cfg.time_delta).any
        (fun delta =>
          sha512 (utf8Bytes (pre_assemble request cfg.shared_secret salt
            ++ toString (now + delta))) == checksum) := by
  simp [validate_checksum, hf]

theorem validate_checksum_no_time (cfg : RCPConfig) (request : List (String × String))
    (salt checksum : String) (now : Int) (hf : cfg.use_time_component = false) :
    validate_checksum cfg request salt checksum now
      = (get_checksum cfg request salt now == checksum) := by
  simp [validate_checksum, hf]

theorem hashInput_time (cfg : RCPConfig) (request : List (String × String))
    (salt : String) (now : Int) (hf : cfg.use_time_component = true) :
    hashInput cfg request salt now
      = pre_assemble request cfg.shared_secret salt ++ toString now := by
  simp [hashInput, hf]

/-- Acceptance half of the tolerance window: a checksum generated at clock g
is accepted at validation clock v as soon as g - v lies in the delta range,
because the candidate for delta = g - v hashes the identical string. -/
theorem validate_accepts_close (cfg : RCPConfig) (request : List (String × String))
    (salt : String) (g v : Int) (hf : cfg.use_time_component = true)
    (h1 : -cfg.time_delta ≤ g - v) (h2 : g - v < cfg.time_delta) :
    validate_checksum cfg request salt (get_checksum cfg request salt g) v = true := by
  rw [validate_checksum_time cfg request salt _ v hf, List.any_eq_true]
  refine ⟨g - v, mem_deltaRange.mpr ⟨h1, h2⟩, ?_⟩
  have hg : v + (g - v) = g := by omega
  rw [hg, get_checksum, hashInput_time cfg request salt g hf]
  exact beq_self_eq_true _

theorem foldl_append_eq_concatPairs (l : List (String × String)) (acc : String) :
    l.foldl (fun a p => a ++ p.1 ++ p.2) acc = acc ++ concatPairs l := by
  induction l generalizing acc with
  | nil => simp [concatPairs, String.append_empty]
  | cons p l ih =>
    rw [List.foldl_cons, ih, concatPairs]
    simp [String.append_assoc]

/-! ### Claim theorems -/

/-- Claim C1: with use_time_component = true, validate_checksum returns true
if and only if some integer delta in the half-open range
from -time_delta to time_delta makes the SHA-512 lowercase-hex digest of the
canonical base string followed by the decimal rendering of now + delta equal
to the supplied checksum; with no such delta it returns false. -/
theorem claim_C1_validate_iff_window (cfg : RCPConfig)
    (request : List (String × String)) (salt checksum : String) (now : Int)
    (hf : cfg.use_time_component = true) :
    validate_checksum cfg request salt checksum now = true ↔
      ∃ delta : Int, -cfg.time_delta ≤ delta ∧ delta < cfg.time_delta ∧
        sha512 (utf8Bytes (pre_assemble request cfg.shared_secret salt
          ++ toString (now + delta))) = checksum := by
  rw [validate_checksum_time cfg request salt checksum now hf, List.any_eq_true]
  constructor
  · rintro ⟨d, hd, he⟩
    exact ⟨d, (mem_deltaRange.mp hd).1, (mem_deltaRange.mp hd).2, beq_iff_eq.mp he⟩
  · rintro ⟨d, h1, h2, he⟩
    exact ⟨d, mem_deltaRange.mpr ⟨h1, h2⟩, beq_iff_eq.mpr he⟩

theorem claim_C1_witness :
    validate_checksum ⟨"k", true, 2⟩ [("a", "1")] "s" "c" 7 = true ↔
      ∃ delta : Int, -(2 : Int) ≤ delta ∧ delta < (2 : Int) ∧
        sha512 (utf8Bytes (pre_assemble [("a", "1")] "k" "s"
          ++ toString ((7 : Int) + delta))) = "c" :=
  claim_C1_validate_iff_window ⟨"k", true, 2⟩ [("a", "1")] "s" "c" 7 rfl

/-- Claim C2: the string that gets hashed is exactly the salt, then the
name+value concatenations in ascending byte-wise name order with no
separators, then the shared secret, then, only when the time component is
enabled, the decimal text of the epoch seconds with no separator. -/
theorem claim_C2_canonical_layout (cfg : RCPConfig)
    (request : List (String × String)) (salt : String) (now : Int) :
    hashInput cfg request salt now =
      salt ++ concatPairs (sortPairs request) ++ cfg.shared_secret
        ++ (if cfg.use_time_component then toString now else "") := by
  rw [hashInput, pre_assemble, foldl_append_eq_concatPairs]

/-- Claim C4 counterexample: with use_time_component = true and
time_delta = 0 the round trip fails even with the same clock reading on both
sides, because the delta range is empty; the claim as stated quantifies over
every configuration and is therefore false. -/
theorem claim_C4_counterexample :
    validate_checksum ⟨"s", true, 0⟩ []
      "" (get_checksum ⟨"s", true, 0⟩ [] "" 5) 5 = false := rfl

/-- Claim C4, amended: the round trip
validate_checksum(fields, salt, get_checksum(fields, salt)) returns true
whenever use_time_component is false, and, when it is true, whenever the
difference between the generation clock g and the validation clock v lies in
the half-open range from -time_delta to time_delta (so a same-clock round
trip needs time_delta at least 1). -/
theorem claim_C4_roundtrip_amended (cfg : RCPConfig)
    (request : List (String × String)) (salt : String) (g v : Int) :
    (cfg.use_time_component = false →
      validate_checksum cfg request salt (get_checksum cfg request salt g) v = true) ∧
    (cfg.use_time_component = true → -cfg.time_delta ≤ g - v → g - v < cfg.time_delta →
      validate_checksum cfg request salt (get_checksum cfg request salt g) v = true) := by
  constructor
  · intro hf
    rw [validate_checksum_no_time cfg request salt _ v hf]
    have hgv : get_checksum cfg request salt v = get_checksum cfg request salt g := by
      simp [get_checksum, hashInput, hf]
    rw [hgv]
    exact beq_self_eq_true _
  · intro hf h1 h2
    exact validate_accepts_close cfg request salt g v hf h1 h2

theorem claim_C4_witness :
    validate_checksum ⟨"k", false, 5⟩ [("a", "1")]
      "s" (get_checksum ⟨"k", false, 5⟩ [("a", "1")] "s" 3) 9 = true ∧
    validate_checksum ⟨"k", true, 5⟩ [("a", "1")]
      "s" (get_checksum ⟨"k", true, 5⟩ [("a", "1")] "s" 3) 4 = true :=
  ⟨(claim_C4_roundtrip_amended ⟨"k", false, 5⟩ [("a", "1")] "s" 3 9).1 rfl,
   (claim_C4_roundtrip_amended ⟨"k", true, 5⟩ [("a", "1")] "s" 3 4).2 rfl
     (by decide) (by decide)⟩

/-- Claim C7: with use_time_component = false, validate_checksum returns true
exactly when get_checksum on the same field set and salt equals the supplied
checksum string. -/
theorem claim_C7_validate_no_time_iff (cfg : RCPConfig)
    (request : List (String × String)) (salt checksum : String) (now : Int)
    (hf : cfg.use_time_component = false) :
    validate_checksum cfg request salt checksum now = true ↔
      get_checksum cfg request salt now = checksum := by
  rw [validate_checksum_no_time cfg request salt checksum now hf]
  exact beq_iff_eq

theorem claim_C7_witness :
    validate_checksum ⟨"k", false, 5⟩ [] "" "z" 0 = true ↔
      get_checksum ⟨"k", false, 5⟩ [] "" 0 = "z" :=
  claim_C7_validate_no_time_iff ⟨"k", false, 5⟩ [] "" "z" 0 rfl

/-- Claim C10: with use_time_component = true and time_delta at most 0 the
delta range is empty, so validate_checksum returns false for every field
set, salt and checksum string. -/
theorem claim_C10_empty_window (cfg : RCPConfig)
    (request : List (String × String)) (salt checksum : String) (now : Int)
    (hf : cfg.use_time_component = true) (hd : cfg.time_delta ≤ 0) :
    validate_checksum cfg request salt checksum now = false := by
  rw [validate_checksum_time cfg request salt checksum now hf]
  have h : deltaRange cfg.time_delta = [] := by
    rw [deltaRange]
    have h2 : (2 * cfg.time_delta).toNat = 0 := by omega
    rw [h2]
    rfl
  rw [h]
  rfl

theorem claim_C10_witness :
    validate_checksum ⟨"", true, 0⟩ []
      "" (get_checksum ⟨"", true, 0⟩ [] "" 0) 0 = false :=
  claim_C10_empty_window ⟨"", true, 0⟩ [] "" (get_checksum ⟨"", true, 0⟩ [] "" 0) 0
    rfl (by decide)

/-! ### The byte-wise key order is total, transitive and antisymmetric -/

theorem bytesLe_total (x : List Nat) : ∀ y, (bytesLe x y || bytesLe y x) = true := by
  induction x with
  | nil => intro y; cases y <;> rfl
  | cons a xs ih =>
    intro y
    cases y with
    | nil => rfl
    | cons b ys =>
      simp only [bytesLe]
      rcases Nat.lt_trichotomy a b with h | h | h
      · rw [if_pos h]
        rfl
      · subst h
        simpa [Nat.lt_irrefl] using ih ys
      · simp [Nat.lt_asymm h, h]

theorem bytesLe_trans (x : List Nat) :
    ∀ y z, bytesLe x y = true → bytesLe y z = true → bytesLe x z = true := by
  induction x with
  | nil => intro y z _ _; rfl
  | cons a xs ih =>
    intro y z h1 h2
    cases y with
    | nil => simp [bytesLe] at h1
    | cons b ys =>
      cases z with
      | nil => simp [bytesLe] at h2
      | cons c zs =>
        simp only [bytesLe] at h1 h2 ⊢
        by_cases hab : a < b
        · by_cases hbc : b < c
          · rw [if_pos (by omega)]
          · by_cases hcb : c < b
            · rw [if_neg hbc, if_pos hcb] at h2
              simp at h2
            · rw [if_pos (by omega)]
        · by_cases hba : b < a
          · rw [if_neg hab, if_pos hba] at h1
            simp at h1
          · have heq : a = b := by omega
            subst heq
            rw [if_neg hab, if_neg hba] at h1
            by_cases hac : a < c
            · rw [if_pos hac]
            · by_cases hca : c < a
              · rw [if_neg hac, if_pos hca] at h2
                simp at h2
              · rw [if_neg hac, if_neg hca] at h2 ⊢
                exact ih ys zs h1 h2

theorem bytesLe_antisymm (x : List Nat) :
    ∀ y, bytesLe x y = true → bytesLe y x = true → x = y := by
  induction x with
  | nil =>
    intro y _ h2
    cases y with
    | nil => rfl
    | cons b ys => simp [bytesLe] at h2
  | cons a xs ih =>
    intro y h1 h2
    cases y with
    | nil => simp [bytesLe] at h1
    | cons b ys =>
      simp only [bytesLe] at h1 h2
      by_cases hab : a < b
      · rw [if_neg (Nat.lt_asymm hab), if_pos hab] at h2
        simp at h2
      · by_cases hba : b < a
        · rw [if_neg hab, if_pos hba] at h1
          simp at h1
        · have heq : a = b := by omega
          subst heq
          rw [if_neg hab, if_neg hab] at h1 h2
          rw [ih ys h1 h2]

/-! ### Injectivity of the UTF-8 encoding -/

theorem char_toNat_lt (c : Char) : c.toNat < 1114112 := by
  have hv := c.valid
  unfold UInt32.isValidChar Nat.isValidChar at hv
  rcases hv with h | ⟨h1, h2⟩
  · show c.val.toNat < 1114112
    omega
  · exact h2

theorem decodeFirst_encode (c : Char) (rest : List Nat) :
    decodeFirst (utf8EncodeChar c ++ rest) = some (c.toNat, rest) := by
  have hlt : c.toNat < 1114112 := char_toNat_lt c
  rw [utf8EncodeChar]
  by_cases h1 : c.toNat < 0x80
  · rw [if_pos h1]
    simp only [List.cons_append, List.nil_append, decodeFirst]
    rw [if_pos h1]
  · rw [if_neg h1]
    by_cases h2 : c.toNat < 0x800
    · rw [if_pos h2]
      simp only [List.cons_append, List.nil_append, decodeFirst]
      rw [if_neg (by omega), if_pos (by omega)]
      simp only [Option.some.injEq, Prod.mk.injEq, and_true]
      omega
    · rw [if_neg h2]
      by_cases h3 : c.toNat < 0x10000
      · rw [if_pos h3]
        simp only [List.cons_append, List.nil_append, decodeFirst]
        rw [if_neg (by omega), if_neg (by omega), if_pos (by omega)]
        simp only [Option.some.injEq, Prod.mk.injEq, and_true]
        omega
      · rw [if_neg h3]
        simp only [List.cons_append, List.nil_append, decodeFirst]
        rw [if_neg (by omega), if_neg (by omega), if_neg (by omega)]
        simp only [Option.some.injEq, Prod.mk.injEq, and_true]
        omega

theorem utf8EncodeChar_ne_nil (c : Char) : utf8EncodeChar c ≠ [] := by
  rw [utf8EncodeChar]
  split_ifs <;> simp

theorem utf8List_injective : ∀ l m : List Char, utf8List l = utf8List m → l = m
  | [], [], _ => rfl
  | [], c :: _, h => by
    exfalso
    rw [show utf8List [] = [] from rfl] at h
    rw [show utf8List (c :: _) = utf8EncodeChar c ++ utf8List _ from rfl] at h
    exact utf8EncodeChar_ne_nil c (List.append_eq_nil.mp h.symm).1
  | c :: _, [], h => by
    exfalso
    rw [show utf8List [] = [] from rfl] at h
    rw [show utf8List (c :: _) = utf8EncodeChar c ++ utf8List _ from rfl] at h
    exact utf8EncodeChar_ne_nil c (List.append_eq_nil.mp h).1
  | c :: l, d :: m, h => by
    rw [show utf8List (c :: l) = utf8EncodeChar c ++ utf8List l from rfl,
      show utf8List (d :: m) = utf8EncodeChar d ++ utf8List m from rfl] at h
    have h2 := congrArg decodeFirst h
    rw [decodeFirst_encode, decodeFirst_encode] at h2
    simp only [Option.some.injEq, Prod.mk.injEq] at h2
    have hc : c = d := Char.ext (UInt32.ext h2.1)
    rw [hc, utf8List_injective l m h2.2]

theorem utf8Bytes_injective (s t : String) (h : utf8Bytes s = utf8Bytes t) : s = t := by
  cases s with
  | mk ls =>
    cases t with
    | mk lt =>
      rw [utf8List_injective ls lt h]

theorem keyLe_antisymm (a b : String) (h1 : keyLe a b = true) (h2 : keyLe b a = true) :
    a = b :=
  utf8Bytes_injective a b (bytesLe_antisymm _ _ h1 h2)

/-! ### The stable sort is determined by the multiset when the keys are
pairwise distinct -/

theorem sortPairs_eq_of_perm {l1 l2 : List (String × String)} (hp : l1.Perm l2)
    (hn : (l1.map Prod.fst).Nodup) : sortPairs l1 = sortPairs l2 := by
  haveI : IsTotal (String × String) pairLe :=
    ⟨fun p q => Bool.or_eq_true_iff.mp (bytesLe_total (utf8Bytes p.1) (utf8Bytes q.1))⟩
  haveI : IsTrans (String × String) pairLe :=
    ⟨fun p q r h1 h2 => bytesLe_trans _ _ _ h1 h2⟩
  have hs1 : List.Sorted pairLe (sortPairs l1) := List.sorted_insertionSort pairLe l1
  have hs2 : List.Sorted pairLe (sortPairs l2) := List.sorted_insertionSort pairLe l2
  have hperm12 : (sortPairs l1).Perm (sortPairs l2) :=
    (List.perm_insertionSort pairLe l1).trans (hp.trans (List.perm_insertionSort pairLe l2).symm)
  have hn2 : (l2.map Prod.fst).Nodup := ((hp.map Prod.fst).nodup hn : _)
  have hn1s : ((sortPairs l1).map Prod.fst).Nodup :=
    (((List.perm_insertionSort pairLe l1).symm).map Prod.fst).nodup hn
  have hn2s : ((sortPairs l2).map Prod.fst).Nodup :=
    (((List.perm_insertionSort pairLe l2).symm).map Prod.fst).nodup hn2
  have hne1 : List.Pairwise (fun p q : String × String => p.1 ≠ q.1) (sortPairs l1) :=
    (List.pairwise_map).mp hn1s
  have hne2 : List.Pairwise (fun p q : String × String => p.1 ≠ q.1) (sortPairs l2) :=
    (List.pairwise_map).mp hn2s
  have hr1 : List.Sorted (fun p q : String × String => pairLe p q ∧ p.1 ≠ q.1) (sortPairs l1) :=
    hs1.and hne1
  have hr2 : List.Sorted (fun p q : String × String => pairLe p q ∧ p.1 ≠ q.1) (sortPairs l2) :=
    hs2.and hne2
  haveI : IsAntisymm (String × String) (fun p q => pairLe p q ∧ p.1 ≠ q.1) :=
    ⟨fun p q h1 h2 => absurd (keyLe_antisymm _ _ h1.1 h2.1) h1.2⟩
  exact List.eq_of_perm_of_sorted hperm12 hr1 hr2

/-- Claim C6: for field sets that are permutations of each other with
pairwise distinct names, and a fixed salt, secret and configuration with
use_time_component = false, canonicalization and get_checksum give identical
output; the embedding is a pure function, so the inputs are never mutated
and the output depends only on the arguments shown. -/
theorem claim_C6_order_independence (request1 request2 : List (String × String))
    (cfg : RCPConfig) (salt : String) (now : Int)
    (hperm : request1.Perm request2) (hnames : (request1.map Prod.fst).Nodup)
    (_hf : cfg.use_time_component = false) :
    pre_assemble request1 cfg.shared_secret salt
        = pre_assemble request2 cfg.shared_secret salt ∧
      get_checksum cfg request1 salt now = get_checksum cfg request2 salt now := by
  have hs : sortPairs request1 = sortPairs request2 := sortPairs_eq_of_perm hperm hnames
  have hpre : pre_assemble request1 cfg.shared_secret salt
      = pre_assemble request2 cfg.shared_secret salt := by
    rw [pre_assemble, pre_assemble, hs]
  refine ⟨hpre, ?_⟩
  rw [get_checksum, get_checksum, hashInput, hashInput, hpre]

theorem claim_C6_witness :
    pre_assemble [("b", "2"), ("a", "1")] "k" "s"
        = pre_assemble [("a", "1"), ("b", "2")] "k" "s" ∧
      get_checksum ⟨"k", false, 5⟩ [("b", "2"), ("a", "1")] "s" 0
        = get_checksum ⟨"k", false, 5⟩ [("a", "1"), ("b", "2")] "s" 0 :=
  claim_C6_order_independence [("b", "2"), ("a", "1")] [("a", "1"), ("b", "2")]
    ⟨"k", false, 5⟩ "s" 0 (List.Perm.swap ("a", "1") ("b", "2") []) (by decide) rfl

/-! ### Shape of the rendered digest (claim C8) -/

theorem hexChar_mem : ∀ n, n < 16 → hexChar n ∈ "0123456789abcdef".data := by decide

theorem wordBytes_lt (w : Nat) : ∀ b ∈ wordBytes w, b < 256 := by
  intro b hb
  simp only [wordBytes, List.mem_cons, List.not_mem_nil, or_false] at hb
  rcases hb with rfl | rfl | rfl | rfl | rfl | rfl | rfl | rfl <;> omega

theorem sha512Bytes_length (msg : List Nat) : (sha512Bytes msg).length = 64 := by
  simp [sha512Bytes, wordBytes]

theorem sha512Bytes_lt (msg : List Nat) : ∀ b ∈ sha512Bytes msg, b < 256 := by
  intro b hb
  simp only [sha512Bytes, List.mem_append] at hb
  rcases hb with (((((((h | h) | h) | h) | h) | h) | h) | h) <;> exact wordBytes_lt _ b h

theorem hexBytes_length (l : List Nat) : (hexBytes l).length = 2 * l.length := by
  induction l with
  | nil => rfl
  | cons b l ih =>
    simp only [hexBytes] at ih
    simp only [hexBytes, List.flatMap_cons, List.length_append, List.length_cons,
      List.length_nil, ih]
    omega

theorem hexBytes_mem (l : List Nat) (hl : ∀ b ∈ l, b < 256) :
    ∀ c ∈ hexBytes l, c ∈ "0123456789abcdef".data := by
  induction l with
  | nil =>
    intro c hc
    simp [hexBytes] at hc
  | cons b l ih =>
    intro c hc
    have hb : b < 256 := hl b (List.mem_cons_self b l)
    simp only [hexBytes, List.flatMap_cons, List.mem_append, List.mem_cons,
      List.not_mem_nil, or_false] at hc
    rcases hc with (rfl | rfl) | hc
    · exact hexChar_mem _ (by omega)
    · exact hexChar_mem _ (by omega)
    · exact ih (fun x hx => hl x (List.mem_cons_of_mem b hx)) c (by simpa [hexBytes] using hc)

/-- Claim C8: for every configuration, field set, salt and clock reading, the
checksum string is exactly 128 characters and every character is one of the
lowercase hexadecimal digits; by construction it renders the 64 digest bytes
two characters per byte, most significant byte first. -/
theorem claim_C8_hex_shape (cfg : RCPConfig) (request : List (String × String))
    (salt : String) (now : Int) :
    (get_checksum cfg request salt now).length = 128 ∧
      ∀ c ∈ (get_checksum cfg request salt now).data, c ∈ "0123456789abcdef".data := by
  constructor
  · show (hexBytes (sha512Bytes (utf8Bytes (hashInput cfg request salt now)))).length = 128
    rw [hexBytes_length, sha512Bytes_length]
  · intro c hc
    exact hexBytes_mem _ (sha512Bytes_lt _) c hc

/-! ### Concrete evaluations: the reference vectors and the tolerance
boundary -/

set_option maxRecDepth 1000000 in
set_option maxHeartbeats 4000000 in
/-- Claim C3: the three reference vectors of the Python reference
implementation, reproduced by the embedded get_checksum. -/
theorem claim_C3_reference_vectors :
    get_checksum cfgVec [] "" 0
        = "477cec82c1c05f7acd42e4c9bd354f3021a59f9a0e8f6cca451c74511a75a8ee0aa4cddcf0a966e91de09b5708d26ce2a7737b65f286a368c87e751135cdc706" ∧
      get_checksum cfgVec [] "TestSalt" 0
        = "50acbd16790dc2ebcc246ea9050acf4bee79088d1a9b0a0cd9f812a3b054b7c39e6ce44aa9c6e53b6d31c9d7da527cdd9a85ecaf2f5d007533d4cde289432683" ∧
      get_checksum cfgVec [("b", "test"), ("a", " long test")] "TestSalt" 0
        = "a85a29e01f295cba43de859a097b6f816826a0ef47bad9d210ab1410cc6ea8490f72a99e62c27b3aefd3b334b1a034d1b8ba1b8b0c6599c27674aeb96cebd591" := by
  refine ⟨?_, ?_, ?_⟩ <;> decide

set_option maxRecDepth 1000000 in
set_option maxHeartbeats 4000000 in
theorem get_checksum_cfgTime_1000 :
    get_checksum cfgTime [] "" 1000
      = "d51ebfe5637b255731e211d88a8e3b5bf087bfa93c5eb86f2b7059fd795176f9f5d5cb89f1d93c41b7891dfe5d16868fbb53891f4e5e750c3d5b1b917d6e5f23" := by
  decide

set_option maxRecDepth 1000000 in
set_option maxHeartbeats 16000000 in
theorem cfgTime_reject_1006 :
    validate_checksum cfgTime [] ""
      "d51ebfe5637b255731e211d88a8e3b5bf087bfa93c5eb86f2b7059fd795176f9f5d5cb89f1d93c41b7891dfe5d16868fbb53891f4e5e750c3d5b1b917d6e5f23"
      1006 = false := by
  decide

set_option maxRecDepth 1000000 in
set_option maxHeartbeats 16000000 in
theorem cfgTime_reject_995 :
    validate_checksum cfgTime [] ""
      "d51ebfe5637b255731e211d88a8e3b5bf087bfa93c5eb86f2b7059fd795176f9f5d5cb89f1d93c41b7891dfe5d16868fbb53891f4e5e750c3d5b1b917d6e5f23"
      995 = false := by
  decide

/-- Claim C5 counterexample: with time_delta = 5, a checksum generated at
clock 1000 is accepted when the validation clock reads 1005, that is at
T + 5, which the claim asserts is rejected; the candidate for delta = -5
reaches the generation timestamp because the range is half-open on the
right, not on the left. -/
theorem claim_C5_counterexample :
    validate_checksum cfgTime [] "" (get_checksum cfgTime [] "" 1000) 1005 = true :=
  validate_accepts_close cfgTime [] "" 1000 1005 rfl (by decide) (by decide)

/-- Claim C5, amended: with use_time_component = true and time_delta = 5, a
checksum generated at clock T is accepted at every validation clock v with
T - 4 ≤ v ≤ T + 5 (so at T, at T + 4 and also at T + 5); outside that
window rejection is a collision property of SHA-512 and is verified here on
the concrete vector with empty field set, secret Hallo-123, salt empty and
T = 1000, which is rejected at validation clocks 1006 and 995. -/
theorem claim_C5_tolerance_amended (cfg : RCPConfig)
    (request : List (String × String)) (salt : String) (T v : Int)
    (hf : cfg.use_time_component = true) (hd : cfg.time_delta = 5)
    (hv1 : T - 4 ≤ v) (hv2 : v ≤ T + 5) :
    validate_checksum cfg request salt (get_checksum cfg request salt T) v = true ∧
      validate_checksum cfgTime [] "" (get_checksum cfgTime [] "" 1000) 1006 = false ∧
      validate_checksum cfgTime [] "" (get_checksum cfgTime [] "" 1000) 995 = false := by
  refine ⟨?_, ?_, ?_⟩
  · exact validate_accepts_close cfg request salt T v hf (by omega) (by omega)
  · rw [get_checksum_cfgTime_1000]
    exact cfgTime_reject_1006
  · rw [get_checksum_cfgTime_1000]
    exact cfgTime_reject_995

theorem claim_C5_witness :
    (validate_checksum cfgTime [("x", "y")] "s"
        (get_checksum cfgTime [("x", "y")] "s" 2000) 2004 = true ∧
      validate_checksum cfgTime [] "" (get_checksum cfgTime [] "" 1000) 1006 = false ∧
      validate_checksum cfgTime [] "" (get_checksum cfgTime [] "" 1000) 995 = false) :=
  claim_C5_tolerance_amended cfgTime [("x", "y")] "s" 2000 2004 rfl rfl
    (by decide) (by decide)

/-- Claim C9: the field sets with pairs (ab, c) and (a, bc) differ, yet under
the same salt S, secret K and configuration they canonicalize to the same
string, so they share one checksum and validate_checksum accepts the
checksum of one for the other. -/
theorem claim_C9_no_separator_collision :
    pre_assemble [("ab", "c")] "K" "S" = pre_assemble [("a", "bc")] "K" "S" ∧
      get_checksum ⟨"K", false, 5⟩ [("ab", "c")] "S" 0
        = get_checksum ⟨"K", false, 5⟩ [("a", "bc")] "S" 0 ∧
      validate_checksum ⟨"K", false, 5⟩ [("a", "bc")] "S"
        (get_checksum ⟨"K", false, 5⟩ [("ab", "c")] "S" 0) 0 = true := by
  have hpre : pre_assemble [("ab", "c")] "K" "S" = pre_assemble [("a", "bc")] "K" "S" := by
    decide
  have hget : get_checksum ⟨"K", false, 5⟩ [("ab", "c")] "S" 0
      = get_checksum ⟨"K", false, 5⟩ [("a", "bc")] "S" 0 := by
    rw [get_checksum, get_checksum, hashInput, hashInput, hpre]
  refine ⟨hpre, hget, ?_⟩
  rw [validate_checksum_no_time ⟨"K", false, 5⟩ [("a", "bc")] "S"
    (get_checksum ⟨"K", false, 5⟩ [("ab", "c")] "S" 0) 0 rfl, hget]
  exact beq_self_eq_true _

end RCP
